import Mathlib

/-!
Shallow embedding of the agent-core library (Arke-Institute/agent-core):
the durable job actor (`src/base-do.ts`), the dispatch/poll client and
promise pool (`src/dispatcher.ts`), the retry utility (`src/utils.ts`)
and the job-log collection writer (`src/logger.ts`).

Machine state and effects are made explicit; network and timer
interactions are passed in as outcome scripts so that every embedded
function is a pure, executable Lean definition.
-/

namespace AgentCore

/-- `JobStatus` from `types.ts`: `'pending' | 'running' | 'done' | 'error'`. -/
inductive JobStatus where
  | pending
  | running
  | done
  | error
deriving DecidableEq, Repr

/-- An opaque structured payload (`Record<string, unknown>` in the source),
modelled as a finite key/value association so equality stays decidable. -/
def Payload := List (String × String)
deriving instance DecidableEq, Repr for Payload

/-- `{ code, message }` error payload from `types.ts` (`BaseJobState.error`). -/
structure ErrInfo where
  code : String
  message : String
deriving DecidableEq, Repr

/-- `JobProgress` from `types.ts`: aggregate counters. -/
structure JobProgress where
  total : Nat
  pending : Nat
  running : Option Nat := none
  dispatched : Option Nat := none
  done : Nat
  error : Nat
  skipped : Option Nat := none
deriving DecidableEq, Repr

/-- `BaseJobState` from `types.ts`: the persisted Job State of one actor. -/
structure JobState where
  job_id : String
  status : JobStatus
  target : String
  job_collection : String
  api_base : String
  expires_at : String
  network : String
  progress : JobProgress
  started_at : String
  completed_at : Option String := none
  updated_at : Option String := none
  result : Option Payload := none
  error : Option ErrInfo := none
deriving DecidableEq, Repr

/-- `AlarmPhase` from `types.ts`. -/
inductive AlarmPhase where
  | dispatch
  | poll
  | process
  | complete
deriving DecidableEq, Repr

/-- `AlarmState` from `types.ts` (the open-ended extra fields are job-specific
and unused by the base actor, so they are not modelled). -/
structure AlarmState where
  phase : AlarmPhase
  poll_start_time : Option Nat := none
  current_index : Option Nat := none
deriving DecidableEq, Repr

/-- `BaseAgentDO.failJob` (`base-do.ts` lines 297-306): set `status := error`,
`completed_at`, `error := {code, message}` and save.  `t` is the
`new Date().toISOString()` taken in `failJob`, `u` the one taken by
`saveState` for `updated_at`. -/
def failJob (s : JobState) (code message : String) (t u : String) : JobState :=
  { s with
      status := JobStatus.error
      completed_at := some t
      error := some ⟨code, message⟩
      updated_at := some u }

/-- `BaseAgentDO.completeJob` (`base-do.ts` lines 311-321): set
`status := done`, `completed_at`, optionally `result`, and save.
`if (result) { state.result = result }` leaves `result` unchanged when the
argument is absent. -/
def completeJob (s : JobState) (result : Option Payload) (t u : String) : JobState :=
  { s with
      status := JobStatus.done
      completed_at := some t
      result := match result with
        | some r => some r
        | none => s.result
      updated_at := some u }

/-- What the subclass hook `processAlarm` reports back to `alarm`:
a returned boolean or a thrown exception. -/
inductive ProcResult where
  | ok (shouldContinue : Bool)
  | threw
deriving DecidableEq, Repr

/-- The externally visible actions the base `alarm` handler itself performs
on one wake-up (`base-do.ts` lines 150-184).  `calledProcess` records
whether `processAlarm` was invoked; `savedState` / `savedAlarm` record
writes issued by the handler's own code (it issues none — subclass writes
happen inside `processAlarm` and are not the handler's); `scheduledDelays`
records `scheduleAlarm` calls with their delays in ms. -/
structure AlarmAction where
  calledProcess : Bool
  savedState : Option JobState
  savedAlarm : Option AlarmState
  scheduledDelays : List Nat
deriving DecidableEq, Repr

/-- The empty effect: the handler returned without doing anything. -/
def AlarmAction.none : AlarmAction := ⟨false, Option.none, Option.none, []⟩

/-- `BaseAgentDO.alarm` (`base-do.ts` lines 150-184), with the stored
job state, the stored alarm state and the subclass behaviour `proc`
passed in explicitly.  Mirrors the source control flow:
missing state → return; terminal status → return; otherwise call
`processAlarm` with the stored alarm state (defaulting to
`{phase: 'dispatch'}`), and on a throw schedule a 5000 ms retry. -/
def alarm (stored : Option JobState) (storedAlarm : Option AlarmState)
    (proc : JobState → AlarmState → ProcResult) : AlarmAction :=
  match stored with
  | Option.none => AlarmAction.none
  | some st =>
    if st.status = JobStatus.done ∨ st.status = JobStatus.error then
      AlarmAction.none
    else
      let as := storedAlarm.getD { phase := AlarmPhase.dispatch }
      match proc st as with
      | ProcResult.ok _ => ⟨true, Option.none, Option.none, []⟩
      | ProcResult.threw => ⟨true, Option.none, Option.none, [5000]⟩

/-- Job States reachable under the sanctioned lifecycle: an initial state is
`pending` with no terminal payload; job-specific `advance` code may rewrite a
non-terminal state into another non-terminal state (terminal payloads are set
only by the sanctioned terminal transitions, which are `completeJob` and
`failJob` — the only places in `base-do.ts` that write `status = done/error`,
`completed_at`, `result` or `error`). -/
inductive Reached : JobState → Prop where
  | start (s : JobState) :
      s.status = JobStatus.pending → s.completed_at = none →
      s.result = none → s.error = none → Reached s
  | advance (s s' : JobState) :
      Reached s →
      s.status ≠ JobStatus.done → s.status ≠ JobStatus.error →
      s'.status ≠ JobStatus.done → s'.status ≠ JobStatus.error →
      s'.result = none → s'.error = none → Reached s'
  | complete (s : JobState) (r : Option Payload) (t u : String) :
      Reached s →
      s.status ≠ JobStatus.done → s.status ≠ JobStatus.error →
      Reached (completeJob s r t u)
  | fail (s : JobState) (code message t u : String) :
      Reached s →
      s.status ≠ JobStatus.done → s.status ≠ JobStatus.error →
      Reached (failJob s code message t u)

/-- `PollResult` from `types.ts`. -/
structure PollResult where
  done : Bool
  status : String
  result : Option Payload := none
  error : Option String := none
deriving DecidableEq, Repr

/-- The body `pollAgentStatus` reads from a successful response
(`dispatcher.ts` lines 110-114): a `status` string plus optional
`result` and `error` payloads. -/
structure StatusBody where
  status : String
  result : Option Payload := none
  error : Option ErrInfo := none
deriving DecidableEq, Repr

/-- What one `fetch` of the status URL can yield, as observed by
`pollAgentStatus`: a thrown network error, a non-OK response, an OK
response whose `json()` throws, or an OK response with a parsed body. -/
inductive FetchOutcome where
  | netErr
  | notOk
  | okBadJson
  | okBody (body : StatusBody)
deriving DecidableEq, Repr

/-- `pollAgentStatus` (`dispatcher.ts` lines 96-134) as a function of the
fetch outcome: non-OK and any thrown error map to
`{done: false, status: 'running'}`; a body with terminal `status` maps to
the corresponding `done: true` result. -/
def pollAgentStatus (f : FetchOutcome) : PollResult :=
  match f with
  | FetchOutcome.netErr => { done := false, status := "running" }
  | FetchOutcome.notOk => { done := false, status := "running" }
  | FetchOutcome.okBadJson => { done := false, status := "running" }
  | FetchOutcome.okBody b =>
    if b.status = "done" then
      { done := true, status := "done", result := b.result }
    else if b.status = "error" then
      { done := true, status := "error",
        error := some ((b.error.map ErrInfo.message).getD "Unknown error") }
    else
      { done := false, status := "running" }

/-- `DispatchResult` from `types.ts`. -/
structure DispatchResult where
  success : Bool
  sub_job_id : Option String := none
  error : Option String := none
deriving DecidableEq, Repr

/-- The union-typed `data` object returned by the invoke call
(`dispatcher.ts` lines 55-73): presence of `error` / `job_id` keys is
modelled with `Option`, `status` likewise. -/
structure InvokeData where
  error : Option String := none
  job_id : Option String := none
  status : Option String := none
deriving DecidableEq, Repr

/-- What `client.api.POST('/agents/{id}/invoke', ...)` can yield as observed
by `dispatchToAgent`: a thrown exception (an `Error` with a message, or a
non-`Error` value), a protocol-level `error` field, or a `data` value
(possibly absent). -/
inductive InvokeOutcome where
  | threwError (msg : String)
  | threwOther
  | errResp (stringified : String)
  | ok (data : Option InvokeData)
deriving DecidableEq, Repr

/-- The `'error' in data && 'status' in data && data.status === 'rejected'`
narrowing of `dispatchToAgent`. -/
def isRejected (d : InvokeData) : Bool :=
  d.error.isSome && d.status == some "rejected"

/-- The `'job_id' in data && 'status' in data && data.status === 'started'`
narrowing of `dispatchToAgent`. -/
def isStarted (d : InvokeData) : Bool :=
  d.job_id.isSome && d.status == some "started"

/-- `dispatchToAgent` (`dispatcher.ts` lines 34-81) as a function of the
invoke outcome.  Every branch resolves to a `DispatchResult`; the
try/catch means a thrown error also resolves rather than propagating. -/
def dispatchToAgent (o : InvokeOutcome) : DispatchResult :=
  match o with
  | InvokeOutcome.threwError msg => { success := false, error := some msg }
  | InvokeOutcome.threwOther => { success := false, error := some "Dispatch failed" }
  | InvokeOutcome.errResp s => { success := false, error := some s }
  | InvokeOutcome.ok none => { success := false, error := some "Unexpected response from Arke" }
  | InvokeOutcome.ok (some d) =>
    if isRejected d then
      { success := false, error := d.error }
    else if isStarted d then
      { success := true, sub_job_id := d.job_id }
    else
      { success := false, error := some "Unexpected response from Arke" }

/-- One invocation of the function passed to `withRetry`: a resolved value
or a thrown error (non-`Error` throwables are normalised to their string
form by the source, so a message string suffices). -/
inductive CallOutcome (α : Type) where
  | ok (v : α)
  | err (e : String)
deriving DecidableEq, Repr

/-- What `withRetry` ends with, plus how many times `fn` was invoked. -/
structure RetryResult (α : Type) where
  outcome : Except String α
  calls : Nat
deriving Repr

/-- The loop of `withRetry` (`utils.ts` lines 27-38), starting at invocation
index `i` with `remaining` iterations left and `last` the most recent
error.  Falling out of the loop throws `lastError ?? Error('Retry failed')`. -/
def retryGo {α : Type} (outs : Nat → CallOutcome α) :
    Nat → Nat → Option String → RetryResult α
  | _, 0, last => ⟨Except.error (last.getD "Retry failed"), 0⟩
  | i, r + 1, _ =>
    match outs i with
    | CallOutcome.ok v => ⟨Except.ok v, 1⟩
    | CallOutcome.err e =>
      let rest := retryGo outs (i + 1) r (some e)
      ⟨rest.outcome, rest.calls + 1⟩

/-- `withRetry` (`utils.ts` lines 20-41) as a function of the script of
invocation outcomes.  The inter-attempt sleeps do not affect the result and
are omitted here. -/
def withRetry {α : Type} (outs : Nat → CallOutcome α) (maxRetries : Nat) :
    RetryResult α :=
  retryGo outs 0 maxRetries none

/-- Events of the `PromisePool` (`dispatcher.ts` lines 183-225) scheduler:
an `add(fn)` call, or the completion of a running unit (the synchronous
`running--; runNext()` continuation in `add` or `runNext`).  JavaScript
runs each such section atomically, so a pool history is a sequence of
these events. -/
inductive PoolEvent where
  | add (id : Nat)
  | finish
deriving DecidableEq, Repr

/-- The pool's mutable state (`running`, `queue`) plus two history columns
used to state the FIFO property: `enq` records every id ever pushed to
`queue` in order, `startedQ` every id started out of `queue` in order. -/
structure PoolState where
  running : Nat
  queue : List Nat
  enq : List Nat
  startedQ : List Nat
deriving DecidableEq, Repr

/-- A fresh pool: nothing running, nothing queued. -/
def PoolState.init : PoolState := ⟨0, [], [], []⟩

/-- One atomic section of `PromisePool` with concurrency `K`:
`add` either enqueues (when `running >= concurrency`) or starts the unit
(`running++`); a completion decrements `running` and runs `runNext`, which
starts the queue head when the queue is nonempty and `running <
concurrency`.  A `finish` with nothing running cannot occur and is a
no-op. -/
def poolStep (K : Nat) (s : PoolState) : PoolEvent → PoolState
  | PoolEvent.add id =>
    if K ≤ s.running then
      { s with queue := s.queue ++ [id], enq := s.enq ++ [id] }
    else
      { s with running := s.running + 1 }
  | PoolEvent.finish =>
    match s.running, s.queue with
    | 0, _ => s
    | r + 1, [] => { s with running := r }
    | r + 1, id :: rest =>
      if r < K then
        { s with running := r + 1, queue := rest, startedQ := s.startedQ ++ [id] }
      else
        { s with running := r }

/-- Run a pool history from the fresh pool. -/
def poolRun (K : Nat) (es : List PoolEvent) : PoolState :=
  es.foldl (poolStep K) PoolState.init

/-- The (negated) loop condition of `drain` (`dispatcher.ts` lines 220-224):
`drain` resolves exactly when `running > 0 || queue.length > 0` fails. -/
def drainResolves (s : PoolState) : Bool :=
  !(decide (0 < s.running) || decide (0 < s.queue.length))

/-- `hay.includes(pat)`: does `pat` occur contiguously in `hay`?  Helper
over character lists. -/
def listStartsWith : List Char → List Char → Bool
  | _, [] => true
  | [], _ :: _ => false
  | c :: cs, p :: ps => c == p && listStartsWith cs ps

/-- Contiguous occurrence of a character sequence in another. -/
def listContainsSeq : List Char → List Char → Bool
  | [], pat => pat.isEmpty
  | c :: cs, pat => listStartsWith (c :: cs) pat || listContainsSeq cs pat

/-- `String.prototype.includes` of JavaScript. -/
def strContains (hay pat : String) : Bool :=
  listContainsSeq hay.data pat.data

/-- The CAS-conflict pattern match of `updateCollectionWithContains`
(`logger.ts` lines 162-164): the stringified rejection contains `'409'`,
`'Conflict'`, `'cas'` or `'expect_tip'`. -/
def isCASConflict (e : String) : Bool :=
  strContains e "409" || strContains e "Conflict" ||
  strContains e "cas" || strContains e "expect_tip"

/-- What one iteration of the CAS loop observes from the remote side:
the tip read finding no collection, the conditional update succeeding,
the conditional update rejected with a (stringified) error, or an
exception thrown anywhere in the iteration's try block. -/
inductive AttemptOutcome where
  | tipMissing
  | updOk
  | updErr (msg : String)
  | threw
deriving DecidableEq, Repr

/-- Result of the CAS loop: outcome, number of loop iterations entered,
and the backoff sleeps awaited (in order, in milliseconds as exact
rationals). -/
structure CasResult where
  success : Bool
  error : Option String := none
  attemptsMade : Nat
  sleeps : List ℚ
deriving DecidableEq, Repr

/-- `Math.pow(2, attempt) * 200 + Math.random() * 1000` with the random
draw `j ∈ [0, 1)` passed in. -/
def backoffDelay (attempt : Nat) (j : ℚ) : ℚ :=
  2 ^ attempt * 200 + 1000 * j

/-- The `for (let attempt = 0; attempt < maxRetries; attempt++)` loop of
`updateCollectionWithContains` (`logger.ts` lines 136-198), indexed by the
current attempt and the remaining iterations (`remaining = maxRetries -
attempt`): a missing tip or a non-conflict rejection return immediately;
a conflict rejection or an exception with iterations left sleeps
`backoffDelay` and retries from re-reading the tip; running out of
iterations returns `Max retries exceeded`.  `remaining ≠ 1` is exactly the
source's `attempt < maxRetries - 1`. -/
def casGo (env : Nat → AttemptOutcome) (jitter : Nat → ℚ) :
    Nat → Nat → CasResult
  | _, 0 =>
    { success := false, error := some "Max retries exceeded",
      attemptsMade := 0, sleeps := [] }
  | attempt, r + 1 =>
    match env attempt with
    | AttemptOutcome.tipMissing =>
      { success := false, error := some "Job collection not found",
        attemptsMade := 1, sleeps := [] }
    | AttemptOutcome.updOk =>
      { success := true, attemptsMade := 1, sleeps := [] }
    | AttemptOutcome.updErr msg =>
      if isCASConflict msg && r != 0 then
        let rest := casGo env jitter (attempt + 1) r
        { rest with attemptsMade := rest.attemptsMade + 1,
                    sleeps := backoffDelay attempt (jitter attempt) :: rest.sleeps }
      else
        { success := false, error := some "Failed to update collection",
          attemptsMade := 1, sleeps := [] }
    | AttemptOutcome.threw =>
      if r != 0 then
        let rest := casGo env jitter (attempt + 1) r
        { rest with attemptsMade := rest.attemptsMade + 1,
                    sleeps := backoffDelay attempt (jitter attempt) :: rest.sleeps }
      else
        { success := false, error := some "Max retries exceeded",
          attemptsMade := 1, sleeps := [] }

/-- `updateCollectionWithContains` (`logger.ts` lines 124-198):
`maxRetries = 10`, an initial sleep of `Math.random() * 2000` ms with the
random draw `initRand ∈ [0, 1)` passed in, then the attempt loop. -/
def updateCollectionWithContains (env : Nat → AttemptOutcome)
    (initRand : ℚ) (jitter : Nat → ℚ) : CasResult :=
  let inner := casGo env jitter 0 10
  { inner with sleeps := 2000 * initRand :: inner.sleeps }

/-- Remote calls `writeJobLog` can issue: the artifact-creating POST, one
CAS-loop iteration (tip read + conditional update), and — representable but
never issued — an artifact delete. -/
inductive ApiOp where
  | createFile
  | casAttempt
  | deleteFile (fileId : String)
deriving DecidableEq, Repr

/-- What the artifact-creating POST of `writeJobLog` can yield: a protocol
error or missing `file` in the response, a created file with its id, or a
thrown exception (an `Error` with a message, or a non-`Error` value). -/
inductive CreateOutcome where
  | createFailed
  | created (fileId : String)
  | threwError (msg : String)
  | threwOther
deriving DecidableEq, Repr

/-- The `{ success, fileId?, error? }` result of `writeJobLog`. -/
structure WriteLogResult where
  success : Bool
  fileId : Option String := none
  error : Option String := none
deriving DecidableEq, Repr

/-- `writeJobLog` (`logger.ts` lines 66-118): create the artifact, then run
the CAS loop; a CAS-loop failure returns `success: false` with the created
`fileId` and the loop's error.  The second component lists the remote
calls issued. -/
def writeJobLog (create : CreateOutcome) (env : Nat → AttemptOutcome)
    (initRand : ℚ) (jitter : Nat → ℚ) : WriteLogResult × List ApiOp :=
  match create with
  | CreateOutcome.threwError msg =>
    ({ success := false, error := some msg }, [ApiOp.createFile])
  | CreateOutcome.threwOther =>
    ({ success := false, error := some "Unknown error" }, [ApiOp.createFile])
  | CreateOutcome.createFailed =>
    ({ success := false, error := some "Failed to create log file" }, [ApiOp.createFile])
  | CreateOutcome.created fileId =>
    let u := updateCollectionWithContains env initRand jitter
    let ops := ApiOp.createFile :: List.replicate u.attemptsMade ApiOp.casAttempt
    if u.success then
      ({ success := true, fileId := some fileId }, ops)
    else
      ({ success := false, fileId := some fileId, error := u.error }, ops)

/-- A concrete freshly started Job State, used to instantiate theorems. -/
def sampleState : JobState :=
  { job_id := "j1", status := JobStatus.pending, target := "tgt",
    job_collection := "coll", api_base := "https://api", expires_at := "exp",
    network := "test",
    progress := { total := 0, pending := 0, done := 0, error := 0 },
    started_at := "t0" }

/-! ## Theorems -/

/-- In every reachable state, a terminal status comes with `completed_at` set. -/
theorem reached_terminal_completed (s : JobState) (h : Reached s)
    (hterm : s.status = JobStatus.done ∨ s.status = JobStatus.error) :
    s.completed_at ≠ none := by
  induction h with
  | start s hp hc hr he =>
    rw [hp] at hterm
    rcases hterm with h | h <;> exact absurd h (by simp)
  | advance s s' _ _ _ hd he _ _ _ =>
    rcases hterm with h | h
    · exact absurd h hd
    · exact absurd h he
  | complete s r t u _ _ _ _ => simp [completeJob]
  | fail s code message t u _ _ _ _ => simp [failJob]

/-- In every reachable state, a non-terminal status comes with no terminal
payload (`result` and `error` both absent). -/
theorem reached_nonterminal_payload (s : JobState) (h : Reached s)
    (hnd : s.status ≠ JobStatus.done) (hne : s.status ≠ JobStatus.error) :
    s.result = none ∧ s.error = none := by
  induction h with
  | start s hp hc hr he => exact ⟨hr, he⟩
  | advance s s' _ _ _ _ _ hr he _ => exact ⟨hr, he⟩
  | complete s r t u _ _ _ _ => simp [completeJob] at hnd
  | fail s code message t u _ _ _ _ => simp [failJob] at hne

/-- In every reachable state, `result` and `error` are never both present. -/
theorem reached_result_error_exclusive (s : JobState) (h : Reached s) :
    ¬ (s.result ≠ none ∧ s.error ≠ none) := by
  induction h with
  | start s hp hc hr he => simp [hr]
  | advance s s' _ _ _ _ _ hr he _ => simp [hr]
  | complete s r t u hs hnd hne ih =>
    have hpay := reached_nonterminal_payload s hs hnd hne
    rcases r with _ | r
    · simp [completeJob, hpay.1, hpay.2]
    · simp [completeJob, hpay.2]
  | fail s code message t u hs hnd hne ih =>
    have hpay := reached_nonterminal_payload s hs hnd hne
    simp [failJob, hpay.1]

/-- The base `alarm` handler does nothing on a terminal state. -/
theorem alarm_terminal_noop (s : JobState) (a : Option AlarmState)
    (proc : JobState → AlarmState → ProcResult)
    (h : s.status = JobStatus.done ∨ s.status = JobStatus.error) :
    alarm (some s) a proc = AlarmAction.none := by
  simp only [alarm]
  rw [if_pos h]

/-- C1: for every Job State reachable through the sanctioned transitions
whose status is `done` or `error`, `completed_at` is set; and every alarm
wake-up on a terminal state performs no action at all: `processAlarm` is not
called, no state is written by the handler, and no alarm is scheduled. -/
theorem claim_c1_terminal_immutable :
    (∀ s : JobState, Reached s →
      (s.status = JobStatus.done ∨ s.status = JobStatus.error) →
      s.completed_at ≠ none) ∧
    (∀ (s : JobState) (a : Option AlarmState)
      (proc : JobState → AlarmState → ProcResult),
      (s.status = JobStatus.done ∨ s.status = JobStatus.error) →
      alarm (some s) a proc = AlarmAction.none) :=
  ⟨reached_terminal_completed, alarm_terminal_noop⟩

/-- C1 witness: a job completed via `completeJob` has `completed_at` set and
its next wake-up is a no-op. -/
theorem claim_c1_terminal_immutable_witness :
    (completeJob sampleState (some [("count", "3")]) "t1" "t2").completed_at ≠ none ∧
    alarm (some (completeJob sampleState (some [("count", "3")]) "t1" "t2")) none
      (fun _ _ => ProcResult.ok true) = AlarmAction.none := by
  have hr : Reached (completeJob sampleState (some [("count", "3")]) "t1" "t2") :=
    Reached.complete sampleState _ "t1" "t2"
      (Reached.start sampleState rfl rfl rfl rfl) (by decide) (by decide)
  exact ⟨claim_c1_terminal_immutable.1 _ hr (Or.inl rfl),
         claim_c1_terminal_immutable.2 _ none _ (Or.inl rfl)⟩

/-- C2: on every Job State reachable through the sanctioned terminal
transitions, `result` and `error` are never both present; `completeJob`
writes `result` and leaves `error` alone; `failJob` writes `error` and
leaves `result` alone. -/
theorem claim_c2_result_error_exclusive :
    (∀ s : JobState, Reached s → ¬ (s.result ≠ none ∧ s.error ≠ none)) ∧
    (∀ (s : JobState) (r : Payload) (t u : String),
      (completeJob s (some r) t u).result = some r ∧
      (completeJob s (some r) t u).error = s.error) ∧
    (∀ (s : JobState) (code message t u : String),
      (failJob s code message t u).error = some ⟨code, message⟩ ∧
      (failJob s code message t u).result = s.result) :=
  ⟨reached_result_error_exclusive,
   fun _ _ _ _ => ⟨rfl, rfl⟩,
   fun _ _ _ _ _ => ⟨rfl, rfl⟩⟩

/-- C2 witness: a job failed via `failJob` never carries both payloads. -/
theorem claim_c2_result_error_exclusive_witness :
    ¬ ((failJob sampleState "E" "boom" "t1" "t2").result ≠ none ∧
       (failJob sampleState "E" "boom" "t1" "t2").error ≠ none) :=
  claim_c2_result_error_exclusive.1 _
    (Reached.fail sampleState "E" "boom" "t1" "t2"
      (Reached.start sampleState rfl rfl rfl rfl) (by decide) (by decide))

/-- C3: when `processAlarm` throws on a non-terminal state, the handler
writes no state (in particular does not transition to `error`) and schedules
exactly one retry alarm 5000 ms later. -/
theorem claim_c3_throw_retries :
    ∀ (s : JobState) (a : Option AlarmState)
      (proc : JobState → AlarmState → ProcResult),
      s.status ≠ JobStatus.done → s.status ≠ JobStatus.error →
      proc s (a.getD { phase := AlarmPhase.dispatch }) = ProcResult.threw →
      alarm (some s) a proc = ⟨true, none, none, [5000]⟩ := by
  intro s a proc hnd hne hproc
  simp only [alarm]
  rw [if_neg (by simp [hnd, hne])]
  simp only [hproc]

/-- C3 witness: a throwing `processAlarm` on a pending job yields exactly
one 5000 ms re-arm and no writes. -/
theorem claim_c3_throw_retries_witness :
    alarm (some sampleState) none (fun _ _ => ProcResult.threw) =
      ⟨true, none, none, [5000]⟩ :=
  claim_c3_throw_retries sampleState none _ (by decide) (by decide) rfl

/-- C4: a thrown fetch, a non-OK response, or an unparsable body each yield
`{done: false, status: 'running'}`; and any `done: true` result with status
`'error'` can only come from an OK response whose body says `'error'`. -/
theorem claim_c4_poll_conservative :
    (∀ f : FetchOutcome, (f = FetchOutcome.netErr ∨ f = FetchOutcome.notOk ∨
        f = FetchOutcome.okBadJson) →
      pollAgentStatus f = { done := false, status := "running" }) ∧
    (∀ f : FetchOutcome, (pollAgentStatus f).done = true →
      (pollAgentStatus f).status = "error" →
      ∃ b : StatusBody, f = FetchOutcome.okBody b ∧ b.status = "error") := by
  constructor
  · rintro f (rfl | rfl | rfl) <;> rfl
  · intro f hdone hstatus
    cases f with
    | netErr => simp [pollAgentStatus] at hdone
    | notOk => simp [pollAgentStatus] at hdone
    | okBadJson => simp [pollAgentStatus] at hdone
    | okBody b =>
      by_cases hd : b.status = "done"
      · simp [pollAgentStatus, hd] at hstatus
      · by_cases he : b.status = "error"
        · exact ⟨b, rfl, he⟩
        · simp [pollAgentStatus, hd, he] at hdone

/-- C4 witness: a network exception polls as still running, and a body with
terminal `'error'` status is the source of an error result. -/
theorem claim_c4_poll_conservative_witness :
    pollAgentStatus FetchOutcome.netErr = { done := false, status := "running" } ∧
    ∃ b : StatusBody,
      FetchOutcome.okBody { status := "error", error := some ⟨"E", "boom"⟩ } =
        FetchOutcome.okBody b ∧ b.status = "error" :=
  ⟨claim_c4_poll_conservative.1 FetchOutcome.netErr (Or.inl rfl),
   claim_c4_poll_conservative.2
     (FetchOutcome.okBody { status := "error", error := some ⟨"E", "boom"⟩ })
     (by decide) (by decide)⟩

/-- The CAS loop enters at most `remaining` iterations. -/
theorem casGo_attempts_le (env : Nat → AttemptOutcome) (jitter : Nat → ℚ) :
    ∀ (r attempt : Nat), (casGo env jitter attempt r).attemptsMade ≤ r := by
  intro r
  induction r with
  | zero => intro attempt; simp [casGo]
  | succ n ih =>
    intro attempt
    cases henv : env attempt with
    | tipMissing => simp [casGo, henv]
    | updOk => simp [casGo, henv]
    | updErr msg =>
      simp only [casGo, henv]
      split
      · simpa using ih (attempt + 1)
      · simp
    | threw =>
      simp only [casGo, henv]
      split
      · simpa using ih (attempt + 1)
      · simp

/-- C5: the collection writer makes at most 10 attempts; it first sleeps
`2000 · initRand` ms, which lies in `[0, 2000)` for a random draw in
`[0, 1)`; a conflict-matching rejection with iterations left sleeps
`backoffDelay attempt` — in `[200·2^attempt, 200·2^attempt + 1000)` for a
jitter draw in `[0, 1)` — and retries from re-reading the tip; a rejection
that does not match the conflict patterns returns failure at once. -/
theorem claim_c5_cas_backoff :
    ∀ (env : Nat → AttemptOutcome) (initRand : ℚ) (jitter : Nat → ℚ),
      ((updateCollectionWithContains env initRand jitter).attemptsMade ≤ 10) ∧
      ((updateCollectionWithContains env initRand jitter).sleeps.head? =
        some (2000 * initRand)) ∧
      (0 ≤ initRand → initRand < 1 →
        0 ≤ 2000 * initRand ∧ 2000 * initRand < 2000) ∧
      (∀ (attempt r : Nat) (msg : String),
        env attempt = AttemptOutcome.updErr msg →
        isCASConflict msg = true → r ≠ 0 →
        casGo env jitter attempt (r + 1) =
          { success := (casGo env jitter (attempt + 1) r).success,
            error := (casGo env jitter (attempt + 1) r).error,
            attemptsMade := (casGo env jitter (attempt + 1) r).attemptsMade + 1,
            sleeps := backoffDelay attempt (jitter attempt) ::
              (casGo env jitter (attempt + 1) r).sleeps }) ∧
      (∀ attempt : Nat, 0 ≤ jitter attempt → jitter attempt < 1 →
        2 ^ attempt * 200 ≤ backoffDelay attempt (jitter attempt) ∧
        backoffDelay attempt (jitter attempt) < 2 ^ attempt * 200 + 1000) ∧
      (∀ (attempt r : Nat) (msg : String),
        env attempt = AttemptOutcome.updErr msg →
        isCASConflict msg = false →
        casGo env jitter attempt (r + 1) =
          { success := false, error := some "Failed to update collection",
            attemptsMade := 1, sleeps := [] }) := by
  intro env initRand jitter
  refine ⟨?_, rfl, ?_, ?_, ?_, ?_⟩
  · exact casGo_attempts_le env jitter 10 0
  · intro h0 h1
    constructor
    · nlinarith
    · nlinarith
  · intro attempt r msg henv hconf hr
    simp only [casGo, henv]
    rw [if_pos (by simp [hconf, hr])]
  · intro attempt h0 h1
    unfold backoffDelay
    constructor
    · nlinarith
    · nlinarith
  · intro attempt r msg henv hconf
    simp only [casGo, henv]
    rw [if_neg (by simp [hconf])]

/-- C5 witness: on a non-conflict rejection after one conflict retry the
loop stops after exactly two attempts with one 200 ms backoff sleep. -/
theorem claim_c5_cas_backoff_witness :
    casGo (fun n => if n = 0 then AttemptOutcome.updErr "409" else
        AttemptOutcome.updErr "denied") (fun _ => (0 : ℚ)) 0 2 =
      { success := false, error := some "Failed to update collection",
        attemptsMade := 2, sleeps := [(200 : ℚ)] } := by
  have hstep := (claim_c5_cas_backoff
      (fun n => if n = 0 then AttemptOutcome.updErr "409" else
        AttemptOutcome.updErr "denied") 0 (fun _ => (0 : ℚ))).2.2.2.1
      0 1 "409" rfl (by decide) (by decide)
  have hstop := (claim_c5_cas_backoff
      (fun n => if n = 0 then AttemptOutcome.updErr "409" else
        AttemptOutcome.updErr "denied") 0 (fun _ => (0 : ℚ))).2.2.2.2.2
      1 0 "denied" rfl (by decide)
  rw [hstep, hstop]
  have : backoffDelay 0 ((fun _ => (0 : ℚ)) 0) = 200 := by
    unfold backoffDelay; norm_num
  simp [this]

/-- C6: when the artifact is created but the CAS loop exhausts its attempt
ceiling, `writeJobLog` reports failure while still carrying the created
artifact's `fileId`, and never issues a delete of the artifact. -/
theorem claim_c6_orphan_on_exhaustion :
    ∀ (fileId : String) (env : Nat → AttemptOutcome) (initRand : ℚ)
      (jitter : Nat → ℚ),
      (updateCollectionWithContains env initRand jitter).success = false →
      (updateCollectionWithContains env initRand jitter).error =
        some "Max retries exceeded" →
      ((writeJobLog (CreateOutcome.created fileId) env initRand jitter).1 =
        { success := false, fileId := some fileId,
          error := some "Max retries exceeded" }) ∧
      (∀ f : String, ApiOp.deleteFile f ∉
        (writeJobLog (CreateOutcome.created fileId) env initRand jitter).2) := by
  intro fileId env initRand jitter hsucc herr
  constructor
  · simp only [writeJobLog]
    rw [if_neg (by simp [hsucc])]
    simp [herr]
  · intro f
    simp only [writeJobLog]
    split <;> simp [List.mem_replicate]

/-- C6 witness: with every iteration throwing, the loop exhausts all 10
attempts and the failure result still carries the created file id. -/
theorem claim_c6_orphan_on_exhaustion_witness :
    ((writeJobLog (CreateOutcome.created "f1") (fun _ => AttemptOutcome.threw)
        0 (fun _ => 0)).1 =
      { success := false, fileId := some "f1",
        error := some "Max retries exceeded" }) ∧
    ApiOp.deleteFile "f1" ∉
      (writeJobLog (CreateOutcome.created "f1") (fun _ => AttemptOutcome.threw)
        0 (fun _ => 0)).2 := by
  have h := claim_c6_orphan_on_exhaustion "f1" (fun _ => AttemptOutcome.threw)
    0 (fun _ => 0) (by decide) (by decide)
  exact ⟨h.1, h.2 "f1"⟩

/-- One pool event preserves the concurrency bound. -/
theorem poolStep_running_le (K : Nat) (s : PoolState) (e : PoolEvent)
    (h : s.running ≤ K) : (poolStep K s e).running ≤ K := by
  cases e with
  | add id =>
    simp only [poolStep]
    split
    · exact h
    · next hlt => simp; omega
  | finish =>
    cases hrun : s.running with
    | zero => simp only [poolStep, hrun]; exact Nat.zero_le K
    | succ r =>
      cases hq : s.queue with
      | nil => simp only [poolStep, hrun, hq]; omega
      | cons id rest =>
        simp only [poolStep, hrun, hq]
        split
        · next hlt => simp; omega
        · simp; omega

/-- One pool event preserves `enq = startedQ ++ queue`: ids ever enqueued
are the ids started out of the queue followed by those still queued. -/
theorem poolStep_fifo (K : Nat) (s : PoolState) (e : PoolEvent)
    (h : s.enq = s.startedQ ++ s.queue) :
    (poolStep K s e).enq =
      (poolStep K s e).startedQ ++ (poolStep K s e).queue := by
  cases e with
  | add id =>
    simp only [poolStep]
    split
    · simp [h]
    · exact h
  | finish =>
    cases hrun : s.running with
    | zero => simpa [poolStep, hrun] using h
    | succ r =>
      cases hq : s.queue with
      | nil => simp only [poolStep, hrun, hq]; simpa [hq] using h
      | cons id rest =>
        simp only [poolStep, hrun, hq]
        split
        · rw [hq] at h; simp [h]
        · simpa [hq] using h

/-- Both pool invariants, propagated along any event history. -/
theorem poolFoldl_invariant (K : Nat) (es : List PoolEvent) :
    ∀ s : PoolState, s.running ≤ K → s.enq = s.startedQ ++ s.queue →
      (es.foldl (poolStep K) s).running ≤ K ∧
      (es.foldl (poolStep K) s).enq =
        (es.foldl (poolStep K) s).startedQ ++ (es.foldl (poolStep K) s).queue := by
  induction es with
  | nil => intro s h1 h2; exact ⟨h1, h2⟩
  | cons e es ih =>
    intro s h1 h2
    exact ih _ (poolStep_running_le K s e h1) (poolStep_fifo K s e h2)

/-- C7: in every state the pool can reach, at most `K` units run at once;
ids started out of the queue extend the enqueue order (FIFO); and `drain`
resolves exactly when nothing is queued and nothing is in flight. -/
theorem claim_c7_pool_bound :
    ∀ (K : Nat) (es : List PoolEvent), 1 ≤ K →
      ((poolRun K es).running ≤ K) ∧
      ((poolRun K es).enq = (poolRun K es).startedQ ++ (poolRun K es).queue) ∧
      (∀ s : PoolState, drainResolves s = true ↔
        (s.running = 0 ∧ s.queue = [])) := by
  intro K es _
  have h := poolFoldl_invariant K es PoolState.init (by simp [PoolState.init])
    (by simp [PoolState.init])
  refine ⟨h.1, h.2, ?_⟩
  intro s
  simp [drainResolves, Nat.pos_iff_ne_zero, List.length_eq_zero]

/-- C7 witness: three submissions to a two-slot pool: two start, one queues,
and the invariants hold after a completion drains the queue head. -/
theorem claim_c7_pool_bound_witness :
    ((poolRun 2 [PoolEvent.add 1, PoolEvent.add 2, PoolEvent.add 3,
        PoolEvent.finish]).running ≤ 2) ∧
    ((poolRun 2 [PoolEvent.add 1, PoolEvent.add 2, PoolEvent.add 3,
        PoolEvent.finish]).enq =
      (poolRun 2 [PoolEvent.add 1, PoolEvent.add 2, PoolEvent.add 3,
        PoolEvent.finish]).startedQ ++
      (poolRun 2 [PoolEvent.add 1, PoolEvent.add 2, PoolEvent.add 3,
        PoolEvent.finish]).queue) ∧
    (drainResolves PoolState.init = true ↔
      (PoolState.init.running = 0 ∧ PoolState.init.queue = [])) :=
  have h := claim_c7_pool_bound 2
    [PoolEvent.add 1, PoolEvent.add 2, PoolEvent.add 3, PoolEvent.finish]
    (by omega)
  ⟨h.1, h.2.1, h.2.2 PoolState.init⟩

/-- The two union narrowings of `dispatchToAgent` are mutually exclusive:
a rejected payload (`status: 'rejected'`) is never a started one. -/
theorem isRejected_not_isStarted (d : InvokeData) (h : isRejected d = true) :
    isStarted d = false := by
  simp only [isRejected, Bool.and_eq_true, beq_iff_eq] at h
  simp [isStarted, h.2]

/-- C8: `dispatchToAgent` resolves on every outcome — `success: true` holds
exactly for an `ok` response whose data carries `status: 'started'` and a
`job_id` (returned as the sub-job id), and every failure carries an error
message. -/
theorem claim_c8_dispatch_total :
    ∀ o : InvokeOutcome,
      ((dispatchToAgent o).success = true ↔
        ∃ d : InvokeData, o = InvokeOutcome.ok (some d) ∧ isStarted d = true ∧
          (dispatchToAgent o).sub_job_id = d.job_id) ∧
      ((dispatchToAgent o).success = false →
        ∃ m : String, (dispatchToAgent o).error = some m) := by
  intro o
  cases o with
  | threwError msg =>
    exact ⟨by simp [dispatchToAgent], fun _ => ⟨msg, rfl⟩⟩
  | threwOther =>
    exact ⟨by simp [dispatchToAgent], fun _ => ⟨"Dispatch failed", rfl⟩⟩
  | errResp e =>
    exact ⟨by simp [dispatchToAgent], fun _ => ⟨e, rfl⟩⟩
  | ok data =>
    cases data with
    | none =>
      exact ⟨by simp [dispatchToAgent], fun _ => ⟨"Unexpected response from Arke", rfl⟩⟩
    | some d =>
      by_cases hrej : isRejected d
      · constructor
        · simp only [dispatchToAgent, hrej, if_true]
          constructor
          · intro hfalse; simp at hfalse
          · rintro ⟨d', hd', hst, _⟩
            obtain rfl : d = d' := by injection hd' with h1; injection h1
            rw [isRejected_not_isStarted d hrej] at hst
            exact absurd hst (by simp)
        · intro _
          have he : d.error.isSome = true := by
            simp only [isRejected, Bool.and_eq_true] at hrej
            exact hrej.1
          obtain ⟨e, he⟩ := Option.isSome_iff_exists.mp he
          exact ⟨e, by simp [dispatchToAgent, hrej, he]⟩
      · by_cases hst : isStarted d
        · constructor
          · simp only [dispatchToAgent, hrej, hst, if_true, if_false]
            constructor
            · intro _
              exact ⟨d, rfl, hst, by simp [dispatchToAgent, hrej, hst]⟩
            · intro _; rfl
          · intro hfalse
            simp [dispatchToAgent, hrej, hst] at hfalse
        · constructor
          · simp only [dispatchToAgent, hrej, hst, if_false]
            constructor
            · intro hfalse; simp at hfalse
            · rintro ⟨d', hd', hst', _⟩
              obtain rfl : d = d' := by injection hd' with h1; injection h1
              rw [hst'] at hst
              exact absurd rfl hst
          · intro _
            exact ⟨"Unexpected response from Arke",
              by simp [dispatchToAgent, hrej, hst]⟩

/-- C8 witness: a started response succeeds with the sub-job id, and a
protocol error resolves to a failure with a message. -/
theorem claim_c8_dispatch_total_witness :
    ((dispatchToAgent (InvokeOutcome.ok
        (some { job_id := some "j9", status := some "started" }))).success = true) ∧
    (∃ m : String,
      (dispatchToAgent (InvokeOutcome.errResp "boom")).error = some m) :=
  ⟨(claim_c8_dispatch_total _).1.mpr
      ⟨{ job_id := some "j9", status := some "started" }, rfl, by decide, by decide⟩,
   (claim_c8_dispatch_total (InvokeOutcome.errResp "boom")).2 (by decide)⟩

/-- C9: an alarm wake-up with no persisted Job State performs no action:
`processAlarm` is not invoked, no job or alarm state is written, and no
alarm is scheduled. -/
theorem claim_c9_missing_state_noop :
    ∀ (a : Option AlarmState) (proc : JobState → AlarmState → ProcResult),
      alarm none a proc = AlarmAction.none :=
  fun _ _ => rfl

/-- Unfolding one successful loop iteration of `withRetry`. -/
theorem retryGo_ok_step {α : Type} (outs : Nat → CallOutcome α) (i r : Nat)
    (last : Option String) (v : α) (h : outs i = CallOutcome.ok v) :
    retryGo outs i (r + 1) last = ⟨Except.ok v, 1⟩ := by
  simp only [retryGo, h]

/-- Unfolding one failing loop iteration of `withRetry`. -/
theorem retryGo_err_step {α : Type} (outs : Nat → CallOutcome α) (i r : Nat)
    (last : Option String) (e : String) (h : outs i = CallOutcome.err e) :
    retryGo outs i (r + 1) last =
      ⟨(retryGo outs (i + 1) r (some e)).outcome,
       (retryGo outs (i + 1) r (some e)).calls + 1⟩ := by
  simp only [retryGo, h]

/-- The retry loop calls `fn` at most `remaining` times. -/
theorem retryGo_calls_le {α : Type} (outs : Nat → CallOutcome α) :
    ∀ (r i : Nat) (last : Option String), (retryGo outs i r last).calls ≤ r := by
  intro r
  induction r with
  | zero => intro i last; simp [retryGo]
  | succ n ih =>
    intro i last
    cases houts : outs i with
    | ok v => simp [retryGo, houts]
    | err e =>
      simp only [retryGo, houts]
      exact Nat.succ_le_succ (ih (i + 1) (some e))

/-- If invocation `i + k` succeeds after `k` failures, the loop returns that
value having made `k + 1` calls. -/
theorem retryGo_first_ok {α : Type} (outs : Nat → CallOutcome α) :
    ∀ (k r i : Nat) (last : Option String) (v : α), k < r →
      outs (i + k) = CallOutcome.ok v →
      (∀ j, j < k → ∃ e, outs (i + j) = CallOutcome.err e) →
      (retryGo outs i r last).outcome = Except.ok v ∧
      (retryGo outs i r last).calls = k + 1 := by
  intro k
  induction k with
  | zero =>
    intro r i last v hk hok _
    obtain ⟨r', rfl⟩ : ∃ r', r = r' + 1 := ⟨r - 1, by omega⟩
    rw [Nat.add_zero] at hok
    rw [retryGo_ok_step outs i r' last v hok]
    exact ⟨rfl, rfl⟩
  | succ k ih =>
    intro r i last v hk hok hprev
    obtain ⟨r', rfl⟩ : ∃ r', r = r' + 1 := ⟨r - 1, by omega⟩
    obtain ⟨e0, he0⟩ := hprev 0 (Nat.succ_pos k)
    rw [Nat.add_zero] at he0
    have hok' : outs ((i + 1) + k) = CallOutcome.ok v := by
      rw [show (i + 1) + k = i + (k + 1) by omega]; exact hok
    have hprev' : ∀ j, j < k → ∃ e, outs ((i + 1) + j) = CallOutcome.err e := by
      intro j hj
      obtain ⟨e, he⟩ := hprev (j + 1) (by omega)
      exact ⟨e, by rw [show (i + 1) + j = i + (j + 1) by omega]; exact he⟩
    have hrec := ih r' (i + 1) (some e0) v (by omega) hok' hprev'
    rw [retryGo_err_step outs i r' last e0 he0]
    exact ⟨hrec.1, by simp [hrec.2]⟩

/-- If every invocation in the window fails, the loop makes exactly
`remaining` calls and ends with the last invocation's error. -/
theorem retryGo_all_err {α : Type} (outs : Nat → CallOutcome α) :
    ∀ (r i : Nat) (last : Option String), 1 ≤ r →
      (∀ j, j < r → ∃ e, outs (i + j) = CallOutcome.err e) →
      ∃ e, outs (i + (r - 1)) = CallOutcome.err e ∧
        (retryGo outs i r last).outcome = Except.error e ∧
        (retryGo outs i r last).calls = r := by
  intro r
  induction r with
  | zero => intro i last h _; exact absurd h (by omega)
  | succ n ih =>
    intro i last _ hall
    obtain ⟨e0, he0⟩ := hall 0 (by omega)
    rw [Nat.add_zero] at he0
    cases n with
    | zero =>
      refine ⟨e0, by simpa using he0, ?_, ?_⟩
      · rw [retryGo_err_step outs i 0 last e0 he0]; simp [retryGo]
      · rw [retryGo_err_step outs i 0 last e0 he0]; simp [retryGo]
    | succ m =>
      have hall' : ∀ j, j < m + 1 → ∃ e, outs ((i + 1) + j) = CallOutcome.err e := by
        intro j hj
        obtain ⟨e, he⟩ := hall (j + 1) (by omega)
        exact ⟨e, by rw [show (i + 1) + j = i + (j + 1) by omega]; exact he⟩
      obtain ⟨e, he, hout, hcalls⟩ := ih (i + 1) (some e0) (by omega) hall'
      refine ⟨e, ?_, ?_, ?_⟩
      · rw [show i + (m + 1 + 1 - 1) = (i + 1) + (m + 1 - 1) by omega]; exact he
      · rw [retryGo_err_step outs i (m + 1) last e0 he0]; exact hout
      · rw [retryGo_err_step outs i (m + 1) last e0 he0]; simp [hcalls]

/-- C10: `withRetry` invokes `fn` at most `maxRetries` times; it returns the
value of the first succeeding invocation; and if all invocations throw it
throws the last invocation's error. -/
theorem claim_c10_withRetry :
    ∀ (α : Type) (outs : Nat → CallOutcome α) (maxRetries : Nat),
      1 ≤ maxRetries →
      ((withRetry outs maxRetries).calls ≤ maxRetries) ∧
      (∀ (i : Nat) (v : α), i < maxRetries → outs i = CallOutcome.ok v →
        (∀ j, j < i → ∃ e, outs j = CallOutcome.err e) →
        (withRetry outs maxRetries).outcome = Except.ok v ∧
        (withRetry outs maxRetries).calls = i + 1) ∧
      ((∀ j, j < maxRetries → ∃ e, outs j = CallOutcome.err e) →
        ∃ e, outs (maxRetries - 1) = CallOutcome.err e ∧
          (withRetry outs maxRetries).outcome = Except.error e ∧
          (withRetry outs maxRetries).calls = maxRetries) := by
  intro α outs maxRetries h1
  refine ⟨retryGo_calls_le outs maxRetries 0 none, ?_, ?_⟩
  · intro i v hi hok hprev
    exact retryGo_first_ok outs i maxRetries 0 none v hi
      (by simpa using hok) (by simpa using hprev)
  · intro hall
    obtain ⟨e, he, hout, hcalls⟩ := retryGo_all_err outs maxRetries 0 none h1
      (by simpa using hall)
    exact ⟨e, by simpa using he, hout, hcalls⟩

/-- C10 witness: with the first invocation failing and the second
succeeding, `withRetry` returns the second value after exactly two calls. -/
theorem claim_c10_withRetry_witness :
    ((withRetry (fun n => if n = 0 then CallOutcome.err "e0"
        else CallOutcome.ok (42 : Nat)) 3).outcome = Except.ok 42) ∧
    ((withRetry (fun n => if n = 0 then CallOutcome.err "e0"
        else CallOutcome.ok (42 : Nat)) 3).calls = 2) :=
  (claim_c10_withRetry Nat
    (fun n => if n = 0 then CallOutcome.err "e0" else CallOutcome.ok 42) 3
    (by omega)).2.1 1 42 (by omega) rfl
    (by
      intro j hj
      have hj0 : j = 0 := by omega
      subst hj0
      exact ⟨"e0", rfl⟩)

end AgentCore
